import Mathlib

/-!
# Verification of the YouTube study app document store (`src/src/App.jsx`)

Shallow embedding of the data model and the store operations of the
browser-local YouTube study companion.  JavaScript strings are embedded as
`String`, arrays as `List`, JS `null`/`undefined`-able values as `Option`,
timestamps and second counts as `Nat`.  The external browser `URL` class is
modelled by `parseURL` below (WHATWG-style scheme/host/path/query split,
sufficient for the reference forms the spec names); the external
`localStorage`/`JSON.parse` pair is abstracted by the `LoadInput` type.
-/

namespace YtNotes

/-- A timestamped markdown note (`handleAddNote` record shape). -/
structure Note where
  id : String
  t : Nat
  text : String
  createdAt : Nat
  updatedAt : Nat
deriving DecidableEq, Repr

/-- A timestamped bookmark (`handleAddBookmark` record shape). -/
structure Bookmark where
  id : String
  t : Nat
  title : String
  tag : String
  color : String
  createdAt : Nat
deriving DecidableEq, Repr

/-- A video entry of a project.  `playlistIndex` is optional (only playlist
imports set it), embedded as `Option Nat`. -/
structure Video where
  id : String
  title : String
  videoId : String
  source : String
  notes : List Note
  bookmarks : List Bookmark
  lastTime : Nat
  playlistIndex : Option Nat
  createdAt : Nat
deriving DecidableEq, Repr

/-- A project: a named collection of videos. -/
structure Project where
  id : String
  name : String
  videos : List Video
  createdAt : Nat
deriving DecidableEq, Repr

/-- The app state handled by the store operations.  The presentation-only
fields (`theme`, `compact`, `distractionFree`) are carried through every
operation unchanged by the `{...s}` spread in the source and are omitted
here. -/
structure AppState where
  projects : List Project
  currentProjectId : Option String
deriving DecidableEq, Repr

/-- Model of JS `String.prototype.trim()`: strip whitespace from both
ends. -/
def jsTrim (s : String) : String :=
  String.mk
    (((s.data.dropWhile Char.isWhitespace).reverse.dropWhile
        Char.isWhitespace).reverse)

/-- JS truthiness of a nullable string: `null`/`undefined` and `""` are
falsy.  `jsTruthyStr x` is `some` exactly when `x` holds a truthy string. -/
def jsTruthyStr : Option String → Option String
  | none => none
  | some s => if s = "" then none else some s

/-! ## Reference resolution (`parseYouTubeId`) and its URL model -/

/-- One character of the video-id class `[a-zA-Z0-9_-]`. -/
def isVideoIdChar (c : Char) : Bool :=
  ('a' ≤ c && c ≤ 'z') || ('A' ≤ c && c ≤ 'Z') || ('0' ≤ c && c ≤ '9') ||
    c = '_' || c = '-'

/-- The anchored test `/^[a-zA-Z0-9_-]{11}$/.test(s)`. -/
def isPlainVideoId (s : String) : Bool :=
  s.length == 11 && s.data.all isVideoIdChar

/-- Characters ending the host part of a URL. -/
def isHostDelim (c : Char) : Bool := c = '/' || c = '?' || c = '#'

/-- Split a character list at the first host delimiter; the delimiter (when
present) starts the second component. -/
def splitHost : List Char → List Char × List Char
  | [] => ([], [])
  | c :: cs =>
    if isHostDelim c then ([], c :: cs)
    else
      let r := splitHost cs
      (c :: r.1, r.2)

/-- Split a character list at the first occurrence of `d`; the second
component is `none` when `d` does not occur and drops `d` otherwise. -/
def splitAtFirst (d : Char) : List Char → List Char × Option (List Char)
  | [] => ([], none)
  | c :: cs =>
    if c = d then ([], some cs)
    else
      let r := splitAtFirst d cs
      (c :: r.1, r.2)

/-- Split a character list at every occurrence of `d` (accumulator form). -/
def splitAllAux (d : Char) : List Char → List Char → List (List Char)
  | [], acc => [acc.reverse]
  | c :: cs, acc =>
    if c = d then acc.reverse :: splitAllAux d cs []
    else splitAllAux d cs (c :: acc)

/-- One `key=value` query parameter (no `=` means an empty value). -/
def parseParam (l : List Char) : String × String :=
  let r := splitAtFirst '=' l
  (String.mk r.1, String.mk (r.2.getD []))

/-- Parse a query string into its parameter list. -/
def parseQuery (l : List Char) : List (String × String) :=
  (splitAllAux '&' l []).map parseParam

/-- Model of the parts of a parsed WHATWG `URL` object that
`parseYouTubeId` reads: `hostname`, `pathname`, `searchParams`. -/
structure URLRec where
  hostname : List Char
  pathname : List Char
  searchParams : List (String × String)
deriving DecidableEq, Repr

/-- Strip a leading `https://` or `http://` scheme; other inputs fail to
parse (the `new URL(...)` constructor throw is modelled by `none`). -/
def stripSchemePrefix (l : List Char) : Option (List Char) :=
  if ("https://".data).isPrefixOf l then some (l.drop 8)
  else if ("http://".data).isPrefixOf l then some (l.drop 7)
  else none

/-- Assemble a `URLRec` from the host part and the path-plus-query part:
pathname up to the first `?` (defaulting to `/`), query parameters after
it.  An empty host is not a valid URL. -/
def mkURL (host pathq : List Char) : Option URLRec :=
  if host.isEmpty then none
  else
    some ⟨host,
      (if (splitAtFirst '?' pathq).1.isEmpty then ['/']
       else (splitAtFirst '?' pathq).1),
      ((splitAtFirst '?' pathq).2.elim [] parseQuery)⟩

/-- Model of `new URL(s)` for the inputs relevant here: scheme, then host up
to the first `/`, `?` or `#`, then pathname and query parameters. -/
def parseURL (s : String) : Option URLRec :=
  (stripSchemePrefix s.data).bind
    (fun rest => mkURL (splitHost rest).1 (splitHost rest).2)

/-- `searchParams.get(k)`: the first value bound to `k`, or `null`. -/
def getParam (ps : List (String × String)) (k : String) : Option String :=
  (ps.find? (fun q => q.1 == k)).map (·.2)

/-- Substring containment, `a.includes(pat)` on character lists. -/
def containsSub (pat : List Char) : List Char → Bool
  | [] => pat.isEmpty
  | c :: cs => pat.isPrefixOf (c :: cs) || containsSub pat cs

/-- `url.hostname.includes("youtube.com")`. -/
def hostIncludesYouTube (u : URLRec) : Bool :=
  containsSub "youtube.com".data u.hostname

/-- The regex search `pathname.match(/\/embed\/([a-zA-Z0-9_-]{11})/)`:
find the first position where `/embed/` is followed by 11 id characters and
return those characters. -/
def findEmbedId : List Char → Option (List Char)
  | [] => none
  | c :: cs =>
    if ("/embed/".data).isPrefixOf (c :: cs) then
      let cand := ((c :: cs).drop 7).take 11
      if cand.length == 11 && cand.all isVideoIdChar then some cand
      else findEmbedId cs
    else findEmbedId cs

/-- The resolution result `{ type, id }` of `parseYouTubeId`. -/
inductive RefType
  | video
  | playlist
deriving DecidableEq, Repr

/-- `{ type: null, id: null }` is the unresolvable result. -/
structure ParsedRef where
  type : Option RefType
  id : Option String
deriving DecidableEq, Repr

/-- The unresolvable result `{ type: null, id: null }`. -/
def unresolvable : ParsedRef := ⟨none, none⟩

/-- The cascade of checks `parseYouTubeId` runs on a successfully parsed
URL, in source order (early returns become `Option.map`/`getD` fallbacks):
a truthy `list` parameter on a `youtube.com` host is a playlist; the
`youtu.be` host resolves to `pathname.slice(1)`; a `youtube.com` host
resolves to a truthy `v` parameter, else to an `/embed/<11-char-id>` path
match; anything else is unresolvable. -/
def resolveFromURL (url : URLRec) : ParsedRef :=
  ((if hostIncludesYouTube url then
      jsTruthyStr (getParam url.searchParams "list")
    else none).map
    (fun pid => ParsedRef.mk (some RefType.playlist) (some pid))).getD
  (if url.hostname = "youtu.be".data then
    ⟨some RefType.video, some (String.mk (url.pathname.drop 1))⟩
   else if hostIncludesYouTube url then
    ((jsTruthyStr (getParam url.searchParams "v")).map
      (fun v => ParsedRef.mk (some RefType.video) (some v))).getD
    (((findEmbedId url.pathname).map
      (fun c => ParsedRef.mk (some RefType.video) (some (String.mk c)))).getD
      unresolvable)
   else unresolvable)

/-- `parseYouTubeId(urlOrId)` from `src/src/App.jsx`: falsy input resolves
to `unresolvable`; a plain 11-char token is a video id; otherwise the input
is URL-parsed (a parse failure, i.e. the caught `new URL` throw, is
unresolvable) and the URL checks of `resolveFromURL` run. -/
def parseYouTubeId (urlOrId : String) : ParsedRef :=
  if urlOrId = "" then unresolvable
  else if isPlainVideoId urlOrId then ⟨some RefType.video, some urlOrId⟩
  else ((parseURL urlOrId).map resolveFromURL).getD unresolvable

/-! ### Splitter lemmas for the URL model -/

theorem isVideoIdChar_ne_delim {c : Char} (h : isVideoIdChar c = true) :
    c ≠ '/' ∧ c ≠ '?' ∧ c ≠ '&' ∧ c ≠ '=' := by
  refine ⟨?_, ?_, ?_, ?_⟩ <;> rintro rfl <;> exact absurd h (by decide)

theorem splitAtFirst_of_forall_ne (d : Char) (l : List Char)
    (h : ∀ c ∈ l, c ≠ d) : splitAtFirst d l = (l, none) := by
  induction l with
  | nil => rfl
  | cons c cs ih =>
    have hc : c ≠ d := h c (List.mem_cons_self c cs)
    have ih' := ih (fun x hx => h x (List.mem_cons_of_mem c hx))
    simp [splitAtFirst, hc, ih']

theorem splitAtFirst_append (d : Char) (l r : List Char)
    (h : ∀ c ∈ l, c ≠ d) : splitAtFirst d (l ++ d :: r) = (l, some r) := by
  induction l with
  | nil => simp [splitAtFirst]
  | cons c cs ih =>
    have hc : c ≠ d := h c (List.mem_cons_self c cs)
    have ih' := ih (fun x hx => h x (List.mem_cons_of_mem c hx))
    simp [splitAtFirst, hc, ih']

theorem splitHost_no_delim (l : List Char)
    (h : ∀ c ∈ l, isHostDelim c = false) : splitHost l = (l, []) := by
  induction l with
  | nil => rfl
  | cons c cs ih =>
    have hc := h c (List.mem_cons_self c cs)
    have ih' := ih (fun x hx => h x (List.mem_cons_of_mem c hx))
    simp [splitHost, hc, ih']

theorem splitHost_append_cons (l : List Char) (c : Char) (r : List Char)
    (hl : ∀ x ∈ l, isHostDelim x = false) (hc : isHostDelim c = true) :
    splitHost (l ++ c :: r) = (l, c :: r) := by
  induction l with
  | nil => simp [splitHost, hc]
  | cons a as ih =>
    have ha := hl a (List.mem_cons_self a as)
    have ih' := ih (fun x hx => hl x (List.mem_cons_of_mem a hx))
    simp [splitHost, ha, ih']

theorem splitAllAux_no_delim (d : Char) (l : List Char)
    (h : ∀ c ∈ l, c ≠ d) :
    ∀ acc, splitAllAux d l acc = [acc.reverse ++ l] := by
  induction l with
  | nil => intro acc; simp [splitAllAux]
  | cons c cs ih =>
    intro acc
    have hc : c ≠ d := h c (List.mem_cons_self c cs)
    have ih' := ih (fun x hx => h x (List.mem_cons_of_mem c hx))
    simp [splitAllAux, hc, ih' (c :: acc)]

theorem isPrefixOf_append_self (l t : List Char) :
    l.isPrefixOf (l ++ t) = true := by
  induction l with
  | nil => simp [List.isPrefixOf]
  | cons c cs ih => simp [List.isPrefixOf, ih]

theorem stripSchemePrefix_https (t : List Char) :
    stripSchemePrefix ("https://".data ++ t) = some t := by
  rw [stripSchemePrefix, if_pos (isPrefixOf_append_self "https://".data t)]
  rw [show (8 : Nat) = ("https://".data).length from rfl, List.drop_left]

theorem plainVideoId_length {s : String} (h : isPlainVideoId s = true) :
    s.data.length = 11 := by
  rw [isPlainVideoId, Bool.and_eq_true] at h
  have h1 : s.length = 11 := beq_iff_eq.mp h.1
  exact h1

theorem plainVideoId_chars {s : String} (h : isPlainVideoId s = true) :
    ∀ c ∈ s.data, isVideoIdChar c = true := by
  rw [isPlainVideoId, Bool.and_eq_true, List.all_eq_true] at h
  exact h.2

theorem isPlainVideoId_eq_false_of_length {s : String}
    (h : s.data.length ≠ 11) : isPlainVideoId s = false := by
  have hb : (s.length == 11) = false := beq_eq_false_iff_ne.mpr h
  rw [isPlainVideoId, hb, Bool.false_and]

/-! ### Evaluating `parseURL` on the specified reference forms -/

theorem parseURL_youtu_be (id : String)
    (hc : ∀ c ∈ id.data, isVideoIdChar c = true) :
    parseURL ("https://youtu.be/" ++ id) =
      some ⟨"youtu.be".data, '/' :: id.data, []⟩ := by
  have hq : ∀ c ∈ '/' :: id.data, c ≠ '?' :=
    List.forall_mem_cons.mpr
      ⟨by decide, fun c h => (isVideoIdChar_ne_delim (hc c h)).2.1⟩
  have hdata : ("https://youtu.be/" ++ id).data
      = "https://".data ++ ("youtu.be".data ++ '/' :: id.data) := by
    rw [String.data_append]
    rw [show "https://youtu.be/".data
          = ("https://".data ++ "youtu.be".data) ++ ['/'] from rfl]
    simp [List.append_assoc]
  unfold parseURL
  rw [hdata, stripSchemePrefix_https, Option.some_bind]
  rw [splitHost_append_cons "youtu.be".data '/' id.data (by decide) (by decide)]
  unfold mkURL
  rw [splitAtFirst_of_forall_ne '?' ('/' :: id.data) hq]
  rfl

theorem parseURL_watch (id : String)
    (hc : ∀ c ∈ id.data, isVideoIdChar c = true) :
    parseURL ("https://www.youtube.com/watch?v=" ++ id) =
      some ⟨"www.youtube.com".data, "/watch".data, [("v", id)]⟩ := by
  have hnamp : ∀ c ∈ "v=".data ++ id.data, c ≠ '&' :=
    List.forall_mem_append.mpr
      ⟨by decide, fun c h => (isVideoIdChar_ne_delim (hc c h)).2.2.1⟩
  have hneq : ∀ c ∈ ['v'], c ≠ '=' := by decide
  have hdata : ("https://www.youtube.com/watch?v=" ++ id).data
      = "https://".data ++ ("www.youtube.com".data ++
          '/' :: ("watch".data ++ '?' :: ("v=".data ++ id.data))) := by
    rw [String.data_append]
    rw [show "https://www.youtube.com/watch?v=".data
          = (("https://".data ++ "www.youtube.com".data) ++
              ('/' :: "watch".data ++ ['?'])) ++ "v=".data from rfl]
    simp [List.append_assoc]
  have hsplit : splitAtFirst '?' ('/' :: ("watch".data ++ '?' ::
      ("v=".data ++ id.data))) =
      ('/' :: "watch".data, some ("v=".data ++ id.data)) := by
    rw [show '/' :: ("watch".data ++ '?' :: ("v=".data ++ id.data))
          = ('/' :: "watch".data) ++ '?' :: ("v=".data ++ id.data)
        from by simp]
    exact splitAtFirst_append '?' ('/' :: "watch".data) _
      (List.forall_mem_cons.mpr ⟨by decide, by decide⟩)
  have hquery : parseQuery ("v=".data ++ id.data) = [("v", id)] := by
    rw [parseQuery, splitAllAux_no_delim '&' _ hnamp []]
    rw [show ("v=".data ++ id.data) = ['v'] ++ '=' :: id.data from by simp]
    rw [List.reverse_nil, List.nil_append, List.map_cons, List.map_nil]
    rw [show parseParam (['v'] ++ '=' :: id.data)
          = (String.mk ['v'], String.mk id.data) from by
        rw [parseParam, splitAtFirst_append '=' ['v'] id.data hneq]
        rfl]
  unfold parseURL
  rw [hdata, stripSchemePrefix_https, Option.some_bind]
  rw [splitHost_append_cons "www.youtube.com".data '/' _ (by decide) (by decide)]
  unfold mkURL
  rw [hsplit]
  rw [show (('/' :: "watch".data, some ("v=".data ++ id.data)).2).elim
        [] parseQuery = parseQuery ("v=".data ++ id.data) from rfl]
  rw [hquery]
  rfl

theorem parseURL_embed (id : String)
    (hc : ∀ c ∈ id.data, isVideoIdChar c = true) :
    parseURL ("https://www.youtube.com/embed/" ++ id ++ "?start=30") =
      some ⟨"www.youtube.com".data, "/embed/".data ++ id.data,
        [("start", "30")]⟩ := by
  have hdata : ("https://www.youtube.com/embed/" ++ id ++ "?start=30").data
      = "https://".data ++ ("www.youtube.com".data ++
          '/' :: ("embed/".data ++ (id.data ++ '?' :: "start=30".data))) := by
    rw [String.data_append, String.data_append]
    rw [show "https://www.youtube.com/embed/".data
          = ("https://".data ++ "www.youtube.com".data) ++
              ('/' :: "embed/".data) from rfl]
    rw [show "?start=30".data = '?' :: "start=30".data from rfl]
    simp [List.append_assoc]
  have hsplit : splitAtFirst '?' ('/' :: ("embed/".data ++
      (id.data ++ '?' :: "start=30".data))) =
      ('/' :: ("embed/".data ++ id.data), some "start=30".data) := by
    rw [show '/' :: ("embed/".data ++ (id.data ++ '?' :: "start=30".data))
          = ('/' :: ("embed/".data ++ id.data)) ++ '?' :: "start=30".data
        from by simp]
    refine splitAtFirst_append '?' _ _ ?_
    refine List.forall_mem_cons.mpr ⟨by decide, ?_⟩
    refine List.forall_mem_append.mpr
      ⟨by decide, fun c h => (isVideoIdChar_ne_delim (hc c h)).2.1⟩
  have hquery : parseQuery "start=30".data = [("start", "30")] := by decide
  unfold parseURL
  rw [hdata, stripSchemePrefix_https, Option.some_bind]
  rw [splitHost_append_cons "www.youtube.com".data '/' _ (by decide) (by decide)]
  unfold mkURL
  rw [hsplit]
  rw [show (('/' :: ("embed/".data ++ id.data),
        some "start=30".data).2).elim [] parseQuery
      = parseQuery "start=30".data from rfl]
  rw [hquery]
  rw [show ('/' :: ("embed/".data ++ id.data)) = "/embed/".data ++ id.data
      from by simp]
  rfl

/-! ### C1: reference resolution -/

theorem not_eq_true_of_eq_false {b : Bool} (h : b = false) : ¬ b = true := by
  rw [h]
  decide

theorem append_ne_empty_left {a b : String} (ha : a.data ≠ []) :
    a ++ b ≠ "" := by
  intro he
  have h2 : (a ++ b).data = [] := by rw [he]
  rw [String.data_append] at h2
  exact ha (List.append_eq_nil.mp h2).1

theorem findEmbedId_exact (id : String)
    (hlen : id.data.length = 11)
    (hc : ∀ c ∈ id.data, isVideoIdChar c = true) :
    findEmbedId ("/embed/".data ++ id.data) = some id.data := by
  have hshape : "/embed/".data ++ id.data
      = '/' :: ("embed/".data ++ id.data) := by simp
  have hpre : ("/embed/".data).isPrefixOf ('/' :: ("embed/".data ++ id.data))
      = true := by
    rw [← hshape]
    exact isPrefixOf_append_self _ _
  have hdrop : ('/' :: ("embed/".data ++ id.data)).drop 7 = id.data := by
    rw [← hshape, show (7 : Nat) = ("/embed/".data).length from rfl,
      List.drop_left]
  have hcand : (('/' :: ("embed/".data ++ id.data)).drop 7).take 11
      = id.data := by
    rw [hdrop]
    exact List.take_of_length_le (by rw [hlen])
  have hcond : (id.data.length == 11 && id.data.all isVideoIdChar) = true := by
    rw [Bool.and_eq_true]
    exact ⟨beq_iff_eq.mpr hlen, List.all_eq_true.mpr hc⟩
  rw [hshape, findEmbedId, if_pos hpre, hcand]
  show (if (id.data.length == 11 && id.data.all isVideoIdChar) = true
      then some id.data else findEmbedId ("embed/".data ++ id.data))
    = some id.data
  rw [if_pos hcond]

theorem parseYouTubeId_token {s : String} (h : isPlainVideoId s = true) :
    parseYouTubeId s = ⟨some RefType.video, some s⟩ := by
  have hne : s ≠ "" := by
    intro he
    rw [he] at h
    exact absurd h (by decide)
  unfold parseYouTubeId
  rw [if_neg hne, if_pos h]

theorem parseYouTubeId_youtu_be {id : String} (h : isPlainVideoId id = true) :
    parseYouTubeId ("https://youtu.be/" ++ id)
      = ⟨some RefType.video, some id⟩ := by
  have hc := plainVideoId_chars h
  have hlen : ("https://youtu.be/" ++ id).data.length ≠ 11 := by
    rw [String.data_append, List.length_append, plainVideoId_length h,
      show ("https://youtu.be/".data).length = 17 from rfl]
    decide
  have hne : ("https://youtu.be/" ++ id) ≠ "" :=
    append_ne_empty_left (by decide)
  unfold parseYouTubeId
  rw [if_neg hne,
    if_neg (not_eq_true_of_eq_false (isPlainVideoId_eq_false_of_length hlen)),
    parseURL_youtu_be id hc, Option.map_some', Option.getD_some]
  rfl

theorem parseYouTubeId_watch {id : String} (h : isPlainVideoId id = true) :
    parseYouTubeId ("https://www.youtube.com/watch?v=" ++ id)
      = ⟨some RefType.video, some id⟩ := by
  have hc := plainVideoId_chars h
  have hid_ne : id ≠ "" := by
    intro he
    have := plainVideoId_length h
    rw [he] at this
    exact absurd this (by decide)
  have hlen : ("https://www.youtube.com/watch?v=" ++ id).data.length ≠ 11 := by
    rw [String.data_append, List.length_append, plainVideoId_length h,
      show ("https://www.youtube.com/watch?v=".data).length = 32 from rfl]
    decide
  have hne : ("https://www.youtube.com/watch?v=" ++ id) ≠ "" :=
    append_ne_empty_left (by decide)
  have hts : jsTruthyStr (some id) = some id := by
    rw [jsTruthyStr, if_neg hid_ne]
  unfold parseYouTubeId
  rw [if_neg hne,
    if_neg (not_eq_true_of_eq_false (isPlainVideoId_eq_false_of_length hlen)),
    parseURL_watch id hc, Option.map_some', Option.getD_some]
  show ((jsTruthyStr (some id)).map
      (fun v => ParsedRef.mk (some RefType.video) (some v))).getD
    (((findEmbedId "/watch".data).map
      (fun c => ParsedRef.mk (some RefType.video) (some (String.mk c)))).getD
      unresolvable) = _
  rw [hts, Option.map_some', Option.getD_some]

theorem parseYouTubeId_embed {id : String} (h : isPlainVideoId id = true) :
    parseYouTubeId ("https://www.youtube.com/embed/" ++ id ++ "?start=30")
      = ⟨some RefType.video, some id⟩ := by
  have hc := plainVideoId_chars h
  have hlen : ("https://www.youtube.com/embed/" ++ id ++ "?start=30").data.length
      ≠ 11 := by
    rw [String.data_append, String.data_append, List.length_append,
      List.length_append, plainVideoId_length h,
      show ("https://www.youtube.com/embed/".data).length = 30 from rfl,
      show ("?start=30".data).length = 9 from rfl]
    decide
  have hne : ("https://www.youtube.com/embed/" ++ id ++ "?start=30") ≠ "" := by
    intro he
    have h3 : (("https://www.youtube.com/embed/" ++ id) ++ "?start=30").data
        = [] := by rw [he]
    rw [String.data_append, String.data_append] at h3
    exact absurd (List.append_eq_nil.mp (List.append_eq_nil.mp h3).1).1
      (by decide)
  unfold parseYouTubeId
  rw [if_neg hne,
    if_neg (not_eq_true_of_eq_false (isPlainVideoId_eq_false_of_length hlen)),
    parseURL_embed id hc, Option.map_some', Option.getD_some]
  show (((findEmbedId ("/embed/".data ++ id.data)).map
      (fun c => ParsedRef.mk (some RefType.video) (some (String.mk c)))).getD
      unresolvable) = _
  rw [findEmbedId_exact id (plainVideoId_length h) hc, Option.map_some',
    Option.getD_some]

theorem parseYouTubeId_unresolvable {s : String}
    (hs1 : isPlainVideoId s = false) (hs2 : parseURL s = none) :
    parseYouTubeId s = unresolvable := by
  by_cases he : s = ""
  · unfold parseYouTubeId
    rw [if_pos he]
  · unfold parseYouTubeId
    rw [if_neg he, if_neg (not_eq_true_of_eq_false hs1), hs2,
      Option.map_none', Option.getD_none]

/-- **C1**: for every 11-character token `id` over `[A-Za-z0-9_-]`,
`parseYouTubeId` returns exactly `id` on the bare token, on
`https://youtu.be/<id>`, on `https://www.youtube.com/watch?v=<id>` and on
`https://www.youtube.com/embed/<id>?start=30`; and every string that is
neither such a token nor a parseable URL resolves to the distinct
unresolvable result `{ type: null, id: null }` (the function is total, so
it never throws). -/
theorem claim1_reference_resolution (id s : String)
    (hid : isPlainVideoId id = true)
    (hs1 : isPlainVideoId s = false) (hs2 : parseURL s = none) :
    parseYouTubeId id = ⟨some RefType.video, some id⟩ ∧
    parseYouTubeId ("https://youtu.be/" ++ id)
      = ⟨some RefType.video, some id⟩ ∧
    parseYouTubeId ("https://www.youtube.com/watch?v=" ++ id)
      = ⟨some RefType.video, some id⟩ ∧
    parseYouTubeId ("https://www.youtube.com/embed/" ++ id ++ "?start=30")
      = ⟨some RefType.video, some id⟩ ∧
    parseYouTubeId s = unresolvable :=
  ⟨parseYouTubeId_token hid, parseYouTubeId_youtu_be hid,
   parseYouTubeId_watch hid, parseYouTubeId_embed hid,
   parseYouTubeId_unresolvable hs1 hs2⟩

/-- Witness for C1 at the concrete token `dQw4w9WgXcQ` and the concrete
non-URL non-token string `not a url!!`. -/
theorem claim1_reference_resolution_witness :
    isPlainVideoId "dQw4w9WgXcQ" = true ∧
    isPlainVideoId "not a url!!" = false ∧
    parseURL "not a url!!" = none ∧
    (parseYouTubeId "dQw4w9WgXcQ"
        = ⟨some RefType.video, some "dQw4w9WgXcQ"⟩ ∧
      parseYouTubeId "https://youtu.be/dQw4w9WgXcQ"
        = ⟨some RefType.video, some "dQw4w9WgXcQ"⟩ ∧
      parseYouTubeId "https://www.youtube.com/watch?v=dQw4w9WgXcQ"
        = ⟨some RefType.video, some "dQw4w9WgXcQ"⟩ ∧
      parseYouTubeId "https://www.youtube.com/embed/dQw4w9WgXcQ?start=30"
        = ⟨some RefType.video, some "dQw4w9WgXcQ"⟩ ∧
      parseYouTubeId "not a url!!" = unresolvable) := by
  refine ⟨by decide, by decide, by decide, ?_⟩
  have h := claim1_reference_resolution "dQw4w9WgXcQ" "not a url!!"
    (by decide) (by decide) (by decide)
  simpa using h

/-! ## Time formatting (`formatTime`) -/

/-- JS `String(n).padStart(2, "0")`. -/
def padStart2 (s : String) : String :=
  if s.length ≥ 2 then s
  else String.mk (List.replicate (2 - s.length) '0') ++ s

/-- `formatTime(seconds)` from `src/src/App.jsx`.  `none` embeds the
`isNaN(seconds) || seconds == null` guard (a not-a-number or null input);
`some n` is the already-floored (`Math.floor`) non-negative second count. -/
def formatTime : Option Nat → String
  | none => "0:00"
  | some totalSeconds =>
    let hours := totalSeconds / 3600
    let minutes := (totalSeconds % 3600) / 60
    let secs := totalSeconds % 60
    let formattedMinutes :=
      if hours > 0 then padStart2 (toString minutes) else toString minutes
    let formattedSeconds := padStart2 (toString secs)
    if hours > 0 then
      toString hours ++ ":" ++ formattedMinutes ++ ":" ++ formattedSeconds
    else formattedMinutes ++ ":" ++ formattedSeconds

/-- The spec's formatting rule, written from the spec's words: `h:mm:ss`
when an hours field is present (minutes and seconds zero-padded to two
digits), otherwise `m:ss` with the leading minute field unpadded and the
seconds zero-padded. -/
def padTwoSpec (n : Nat) : String :=
  if n < 10 then "0" ++ toString n else toString n

/-- Spec-side formatter, compared with `formatTime` by refinement. -/
def formatTimeSpec (n : Nat) : String :=
  if n / 3600 > 0 then
    toString (n / 3600) ++ ":" ++ padTwoSpec (n % 3600 / 60) ++ ":" ++
      padTwoSpec (n % 60)
  else toString (n % 3600 / 60) ++ ":" ++ padTwoSpec (n % 60)

/-! ## Store operations -/

/-- The per-project function of the `p.id !== pid ? p : {...p, ...}` map
pattern. -/
def projUpd (pid : String) (f : Project → Project) (p : Project) : Project :=
  if p.id == pid then f p else p

/-- The per-video function of the
`v.videoId !== vid ? v : {...v, ...}` map pattern. -/
def videoUpd (vid : String) (g : Video → Video) (v : Video) : Video :=
  if v.videoId == vid then g v else v

/-- Update every project whose id matches `pid`. -/
def updateProjectIn (s : AppState) (pid : String)
    (f : Project → Project) : AppState :=
  { s with projects := s.projects.map (projUpd pid f) }

/-- Update every video with external id `vid` inside the project `pid`
(the nested `projects.map`/`videos.map` pattern shared by
`handleAddNote`, `handleAddBookmark` and the `lastTime` persist effect). -/
def updateVideoIn (s : AppState) (pid vid : String)
    (g : Video → Video) : AppState :=
  updateProjectIn s pid (fun p =>
    { p with videos := p.videos.map (videoUpd vid g) })

/-- Resolve the current video the way the component does: the project with
id `pid`, then its video with external id `vid`. -/
def findVideo (s : AppState) (pid vid : String) : Option Video :=
  (s.projects.find? (fun p => p.id == pid)).bind
    (fun p => p.videos.find? (fun v => v.videoId == vid))

/-- The `type` argument of `handleAddNote`: the call sites pass `"input"`
(the notes-section button) or `"prompt"` (the `n` hotkey and the `+ Note`
button); `other` stands for any other value of the argument. -/
inductive EntryType
  | input
  | prompt
  | other
deriving DecidableEq, Repr

/-- The text-selection logic of `handleAddNote`: `text` starts as the
trimmed draft; the `input` path rejects a falsy (empty) trimmed draft; the
`prompt` path rejects a cancelled (`null`) or empty prompt and otherwise
uses the response untrimmed; any other `type` keeps the trimmed draft with
no check.  `none` means the handler alerts and returns without a note. -/
def addNoteText (entry : EntryType) (noteDraft : String)
    (promptResponse : Option String) : Option String :=
  match entry with
  | .input => if jsTrim noteDraft = "" then none else some (jsTrim noteDraft)
  | .prompt =>
    match promptResponse with
    | none => none
    | some r => if r = "" then none else some r
  | .other => some (jsTrim noteDraft)

/-- `handleAddNote(type)`: no-op without a current video; otherwise the
note `{id, t, text, createdAt, updatedAt}` is prepended to the current
video's notes.  The `Bool` reports whether a note was created (`false` is
the alert-and-return failure signal). -/
def handleAddNote (s : AppState) (pid vid : String) (entry : EntryType)
    (noteDraft : String) (promptResponse : Option String)
    (time : Nat) (newId : String) (now : Nat) : AppState × Bool :=
  match findVideo s pid vid with
  | none => (s, false)
  | some _ =>
    match addNoteText entry noteDraft promptResponse with
    | none => (s, false)
    | some text =>
      (updateVideoIn s pid vid
        (fun v => { v with notes := ⟨newId, time, text, now, now⟩ :: v.notes }),
       true)

/-- The bookmark record `handleAddBookmark` constructs:
title `(bookmarkTitle || "Bookmark").trim()`, trimmed tag, and color
`bookmarkColor || "emerald"`. -/
def bookmarkOf (time : Nat) (titleInput tagInput colorInput newId : String)
    (now : Nat) : Bookmark :=
  ⟨newId, time,
   jsTrim (if titleInput = "" then "Bookmark" else titleInput),
   jsTrim tagInput,
   if colorInput = "" then "emerald" else colorInput, now⟩

/-- `handleAddBookmark`: no-op without a current video; otherwise the
bookmark is prepended to the current video's bookmarks. -/
def handleAddBookmark (s : AppState) (pid vid : String) (time : Nat)
    (titleInput tagInput colorInput newId : String) (now : Nat) : AppState :=
  match findVideo s pid vid with
  | none => s
  | some _ =>
    updateVideoIn s pid vid (fun v =>
      { v with bookmarks :=
          bookmarkOf time titleInput tagInput colorInput newId now
            :: v.bookmarks })

/-- The `setState` transformation of the `lastTime` persist effect: write
`lastTime := t` into every video of project `pid` whose external id is
`vid`. -/
def setVideoLastTime (s : AppState) (pid vid : String) (t : Nat) : AppState :=
  updateVideoIn s pid vid (fun v => { v with lastTime := t })

/-- `handleAddProject`: a falsy prompt answer (cancel or empty) is a no-op;
otherwise the new empty project is appended and becomes current. -/
def handleAddProject (s : AppState) (name newId : String)
    (now : Nat) : AppState :=
  if name = "" then s
  else
    { s with
      projects := s.projects ++ [⟨newId, name, [], now⟩]
      currentProjectId := some newId }

/-- The video record built by the single-video branch of `handleAddVideo`. -/
def addVideoRecord (vid source newId : String) (now : Nat) : Video :=
  ⟨newId, "Untitled Video", vid, source, [], [], 0, none, now⟩

/-- The `type === 'video'` branch of `handleAddVideo` for current project
`pid` and resolved external id `vid`: when a video with that external id
already exists in the project the state is unchanged (only the selection
changes); otherwise the new record is appended to the project's `videos`.
The `type === 'playlist'` branch depends on the external playlist fetch
and is not part of this operation. -/
def handleAddVideoSingle (s : AppState) (pid vid source newId : String)
    (now : Nat) : AppState :=
  match s.projects.find? (fun p => p.id == pid) with
  | none => s
  | some proj =>
    if proj.videos.any (fun v => v.videoId == vid) then s
    else
      { s with projects := s.projects.map (projUpd pid (fun p =>
          { p with videos :=
              p.videos ++ [addVideoRecord vid source newId now] })) }

/-- `handleDeleteProject` for current project `pid`: the project is
filtered out; an emptied collection is replaced by one default project with
the freshly generated `newId`; `currentProjectId` becomes
`projects[0]?.id || null`. -/
def handleDeleteProject (s : AppState) (pid newId : String)
    (now : Nat) : AppState :=
  let remainingProjects := s.projects.filter (fun p => !(p.id == pid))
  let projects :=
    if remainingProjects.isEmpty then [⟨newId, "New Project", [], now⟩]
    else remainingProjects
  { s with
    projects := projects
    currentProjectId := jsTruthyStr (projects.head?.map (·.id)) }

/-- `handleImportJSON` after reading the file: `none` models a JSON parse
throw or a record failing the `!project || !project.id || !project.videos`
check (alert, state unchanged); a falsy (empty) id also fails that check;
otherwise the imported project is appended as-is — with whatever id it
carries — and becomes current. -/
def handleImportJSON (s : AppState) (imported : Option Project) : AppState :=
  match imported with
  | none => s
  | some project =>
    if project.id = "" then s
    else
      { s with
        projects := s.projects ++ [project]
        currentProjectId := some project.id }

/-- The id literal hardcoded in the duplicate-id debug effect. -/
def hardcodedDebugId : String := "2e1d9cd0-5a2a-47c7-89c5-5bda0acd1054"

/-- The duplicate-id debug effect: when the project ids are not pairwise
distinct (`new Set(projectIds).size !== projectIds.length`), every project
whose id equals the hardcoded literal and whose index is positive gets a
regenerated id; every other project — whatever its id — is left as is. -/
def fixDuplicateProjectIds (s : AppState) (gen : Nat → String) : AppState :=
  let projectIds := s.projects.map (·.id)
  if projectIds.dedup.length == projectIds.length then s
  else
    { s with projects := s.projects.enum.map (fun ip =>
        if ip.2.id == hardcodedDebugId && ip.1 > 0 then
          { ip.2 with id := gen ip.1 }
        else ip.2) }

/-! ## Load on start (`useLocalStorage`) -/

/-- The outcome of `localStorage.getItem(LS_KEY)` plus `JSON.parse` at
startup: `absent` models a missing (or empty, hence falsy) stored string,
`unparsable` a `JSON.parse` throw, and `record` a parsed object whose
`projects` and `currentProjectId` fields may each be missing (`none`). -/
inductive LoadInput
  | absent
  | unparsable
  | record (projects : Option (List Project))
      (currentProjectId : Option String)

/-- The loaded shape before any validation: `projects` is `none` when the
returned object carries no `projects` field (the `{...parsed}` spread
keeps an absent field absent). -/
structure RawState where
  projects : Option (List Project)
  currentProjectId : Option String
deriving DecidableEq, Repr

/-- The initial state the loader builds from `defaultState`: one empty
project under the generated id and
`initialState.currentProjectId = initialState.projects[0].id`. -/
def defaultLoaded (freshId : String) (now : Nat) : RawState :=
  ⟨some [⟨freshId, "My First Study Set", [], now⟩], some freshId⟩

/-- The `useState` initializer of `useLocalStorage`: an absent record and a
parse failure fall back to the default state; a parsed record keeps a
truthy `currentProjectId` and is otherwise filled with `projects[0]?.id` —
and when `projects` is missing while that fill is evaluated, reading
`parsed.projects[0]` throws inside the `try`, which also falls back to the
default state. -/
def loadState (input : LoadInput) (freshId : String) (now : Nat) : RawState :=
  match input with
  | .absent => defaultLoaded freshId now
  | .unparsable => defaultLoaded freshId now
  | .record projects? cid? =>
    match jsTruthyStr cid? with
    | some cid => ⟨projects?, some cid⟩
    | none =>
      match projects? with
      | none => defaultLoaded freshId now
      | some ps => ⟨some ps, ps.head?.map (·.id)⟩

/-- §3 validity of a loaded state: the `projects` list is present and
either `currentProjectId` resolves to one of its projects or the list is
non-empty (so the first project can serve as fallback). -/
def validRawState (s : RawState) : Bool :=
  match s.projects with
  | none => false
  | some ps =>
    (match s.currentProjectId with
     | some cid => ps.any (fun p => p.id == cid)
     | none => false) || !ps.isEmpty

/-! ## Sample data for witnesses and counterexamples -/

/-- A sample video (external id `v1`, `lastTime` 42). -/
def vSample : Video := ⟨"vid-1", "T", "v1", "src", [], [], 42, none, 5⟩

/-- A sample project holding `vSample`. -/
def pSample : Project := ⟨"p1", "P", [vSample], 3⟩

/-- A sample state holding `pSample` as the current project. -/
def sSample : AppState := ⟨[pSample], some "p1"⟩

/-! ### C2: time formatting -/

theorem padStart2_eq_padTwoSpec : ∀ m, m < 60 →
    padStart2 (toString m) = padTwoSpec m := by decide

theorem formatTime_eq_spec (n : Nat) :
    formatTime (some n) = formatTimeSpec n := by
  have hm : n % 3600 / 60 < 60 := by omega
  have hs : n % 60 < 60 := by omega
  have pm := padStart2_eq_padTwoSpec _ hm
  have ps := padStart2_eq_padTwoSpec _ hs
  simp only [formatTime, formatTimeSpec]
  by_cases h : n / 3600 > 0
  · simp [h, pm, ps]
  · simp [h, ps]

/-- **C2**: `formatTime` maps `0 ↦ "0:00"`, `59 ↦ "0:59"`, `60 ↦ "1:00"`,
`61 ↦ "1:01"`, `3661 ↦ "1:01:01"`, and a not-a-number or null input to
`"0:00"`; and for every non-negative integer second count it agrees with
the spec's padding rule (`h:mm:ss` with zero-padded minutes and seconds
when hours are present, else `m:ss` with an unpadded leading minute
field). -/
theorem claim2_formatTime :
    formatTime none = "0:00" ∧
    formatTime (some 0) = "0:00" ∧
    formatTime (some 59) = "0:59" ∧
    formatTime (some 60) = "1:00" ∧
    formatTime (some 61) = "1:01" ∧
    formatTime (some 3661) = "1:01:01" ∧
    ∀ n : Nat, formatTime (some n) = formatTimeSpec n :=
  ⟨rfl, by decide, by decide, by decide, by decide, by decide,
   formatTime_eq_spec⟩

/-! ### Lemmas about the nested update pattern -/

theorem find?_map_pred {α : Type} (l : List α) (f : α → α) (q : α → Bool)
    (hq : ∀ x, q (f x) = q x) :
    (l.map f).find? q = (l.find? q).map f := by
  induction l with
  | nil => rfl
  | cons a as ih =>
    cases hqa : q a with
    | true =>
      rw [List.map_cons, List.find?_cons_of_pos _ (by rw [hq]; exact hqa),
        List.find?_cons_of_pos _ hqa, Option.map_some']
    | false =>
      rw [List.map_cons, List.find?_cons_of_neg _ (by rw [hq, hqa]; decide),
        List.find?_cons_of_neg _ (by rw [hqa]; decide), ih]

theorem projects_mk (ps : List Project) (c : Option String) :
    (AppState.mk ps c).projects = ps := rfl

theorem videos_mk (i n : String) (vs : List Video) (c : Nat) :
    (Project.mk i n vs c).videos = vs := rfl

theorem currentProjectId_mk (ps : List Project) (c : Option String) :
    (AppState.mk ps c).currentProjectId = c := rfl

theorem projUpd_id (pid : String) (f : Project → Project)
    (hf : ∀ p, (f p).id = p.id) (p : Project) :
    (projUpd pid f p).id = p.id := by
  unfold projUpd
  by_cases h : (p.id == pid) = true
  · rw [if_pos h]
    exact hf p
  · rw [if_neg h]

theorem videoUpd_videoId (vid : String) (g : Video → Video)
    (hg : ∀ v, (g v).videoId = v.videoId) (v : Video) :
    (videoUpd vid g v).videoId = v.videoId := by
  unfold videoUpd
  by_cases h : (v.videoId == vid) = true
  · rw [if_pos h]
    exact hg v
  · rw [if_neg h]

theorem findVideo_updateVideoIn (s : AppState) (pid vid : String)
    (g : Video → Video) (hg : ∀ v, (g v).videoId = v.videoId) :
    findVideo (updateVideoIn s pid vid g) pid vid
      = (findVideo s pid vid).map g := by
  have hq : ∀ x : Project,
      ((projUpd pid (fun p =>
          { p with videos := p.videos.map (videoUpd vid g) }) x).id == pid)
        = (x.id == pid) := by
    intro x
    have hx := projUpd_id pid (fun p =>
      { p with videos := (p.videos.map (videoUpd vid g)) }) (fun p => rfl) x
    rw [hx]
  have hv : ∀ v : Video,
      ((videoUpd vid g v).videoId == vid) = (v.videoId == vid) := by
    intro v
    rw [videoUpd_videoId _ _ hg]
  unfold findVideo updateVideoIn updateProjectIn
  rw [projects_mk, find?_map_pred _ _ _ hq]
  cases hf : s.projects.find? (fun p => p.id == pid) with
  | none => rfl
  | some p =>
    have hpid : (p.id == pid) = true := by
      have h := List.find?_some hf
      exact h
    rw [Option.map_some', Option.some_bind, Option.some_bind, projUpd,
      if_pos hpid, videos_mk, find?_map_pred _ _ _ hv]
    cases hfv : p.videos.find? (fun v => v.videoId == vid) with
    | none => rfl
    | some v =>
      have hvid : (v.videoId == vid) = true := by
        have h := List.find?_some hfv
        exact h
      rw [Option.map_some', Option.map_some', videoUpd, if_pos hvid]

theorem videoUpd_idem (vid : String) (g : Video → Video)
    (hg : ∀ v, (g v).videoId = v.videoId) (hgg : ∀ v, g (g v) = g v)
    (v : Video) : videoUpd vid g (videoUpd vid g v) = videoUpd vid g v := by
  by_cases h : (v.videoId == vid) = true
  · have h1 : videoUpd vid g v = g v := by
      rw [videoUpd, if_pos h]
    have h2 : ((g v).videoId == vid) = true := by
      rw [hg v]
      exact h
    rw [h1, videoUpd, if_pos h2, hgg]
  · have h1 : videoUpd vid g v = v := by
      rw [videoUpd, if_neg h]
    rw [h1]
    exact h1

theorem map_videoUpd_idem (vid : String) (g : Video → Video)
    (hg : ∀ v, (g v).videoId = v.videoId) (hgg : ∀ v, g (g v) = g v)
    (vs : List Video) :
    (vs.map (videoUpd vid g)).map (videoUpd vid g)
      = vs.map (videoUpd vid g) := by
  rw [List.map_map]
  refine List.map_congr_left ?_
  intro v _
  exact videoUpd_idem vid g hg hgg v

theorem updateVideoIn_twice (s : AppState) (pid vid : String)
    (g : Video → Video) (hg : ∀ v, (g v).videoId = v.videoId)
    (hgg : ∀ v, g (g v) = g v) :
    updateVideoIn (updateVideoIn s pid vid g) pid vid g
      = updateVideoIn s pid vid g := by
  unfold updateVideoIn updateProjectIn
  rw [projects_mk, currentProjectId_mk, List.map_map]
  refine congrArg (fun ps => AppState.mk ps s.currentProjectId) ?_
  refine List.map_congr_left ?_
  intro p _
  show projUpd pid _ (projUpd pid _ p) = projUpd pid _ p
  by_cases h : (p.id == pid) = true
  · have h1 : projUpd pid (fun q =>
        { q with videos := q.videos.map (videoUpd vid g) }) p
        = { p with videos := p.videos.map (videoUpd vid g) } := by
      rw [projUpd, if_pos h]
    rw [h1, projUpd, if_pos (show (({ p with videos :=
        (p.videos.map (videoUpd vid g)) } : Project).id == pid) = true from h)]
    rw [videos_mk, map_videoUpd_idem vid g hg hgg]
  · have h1 : projUpd pid (fun q =>
        { q with videos := q.videos.map (videoUpd vid g) }) p = p := by
      rw [projUpd, if_neg h]
    rw [h1, h1]

theorem updateVideoIn_eq_self (s : AppState) (pid vid : String)
    (g : Video → Video)
    (h : ∀ p ∈ s.projects, (p.id == pid) = true →
        ∀ v ∈ p.videos, (v.videoId == vid) = true → g v = v) :
    updateVideoIn s pid vid g = s := by
  unfold updateVideoIn updateProjectIn
  have hmap : s.projects.map (projUpd pid (fun p =>
      { p with videos := p.videos.map (videoUpd vid g) })) = s.projects := by
    rw [show s.projects = s.projects.map id from (List.map_id s.projects).symm]
    rw [List.map_map]
    refine List.map_congr_left ?_
    intro p hp
    show projUpd pid _ (id p) = id p
    by_cases hid : (p.id == pid) = true
    · have hvs : p.videos.map (videoUpd vid g) = p.videos := by
        rw [show p.videos = p.videos.map id from (List.map_id p.videos).symm]
        rw [List.map_map]
        refine List.map_congr_left ?_
        intro v hv
        show videoUpd vid g (id v) = id v
        by_cases hvid : (v.videoId == vid) = true
        · show videoUpd vid g v = v
          rw [videoUpd, if_pos hvid]
          exact h p hp hid v hv hvid
        · show videoUpd vid g v = v
          rw [videoUpd, if_neg hvid]
      show projUpd pid _ p = p
      rw [projUpd, if_pos hid, hvs]
    · show projUpd pid _ p = p
      rw [projUpd, if_neg hid]
  rw [hmap]

/-! ### C7: idempotence of the `lastTime` update -/

/-- **C7**: the `lastTime` update transformation is idempotent — applying
it twice with the same value yields a state structurally equal to applying
it once; and when every targeted video already carries that `lastTime`,
the update returns a state structurally equal to the input. -/
theorem claim7_setVideoLastTime_idempotent (s : AppState) (pid vid : String)
    (t : Nat) :
    setVideoLastTime (setVideoLastTime s pid vid t) pid vid t
      = setVideoLastTime s pid vid t ∧
    ((∀ p ∈ s.projects, (p.id == pid) = true →
        ∀ v ∈ p.videos, (v.videoId == vid) = true → v.lastTime = t) →
      setVideoLastTime s pid vid t = s) := by
  constructor
  · exact updateVideoIn_twice s pid vid _ (fun v => rfl) (fun v => rfl)
  · intro h
    refine updateVideoIn_eq_self s pid vid _ ?_
    intro p hp hid v hv hvid
    have hlt := h p hp hid v hv hvid
    show ({ v with lastTime := t } : Video) = v
    rw [← hlt]

/-- Witness for C7 on the sample state, whose video already has
`lastTime = 42`. -/
theorem claim7_setVideoLastTime_idempotent_witness :
    setVideoLastTime (setVideoLastTime sSample "p1" "v1" 42) "p1" "v1" 42
      = setVideoLastTime sSample "p1" "v1" 42 ∧
    setVideoLastTime sSample "p1" "v1" 42 = sSample :=
  ⟨(claim7_setVideoLastTime_idempotent sSample "p1" "v1" 42).1,
   (claim7_setVideoLastTime_idempotent sSample "p1" "v1" 42).2 (by decide)⟩

/-! ### C3: empty-note rejection -/

/-- C3 counterexample: on the `prompt` entry path, the whitespace-only
response `" "` — text that is empty after trimming — does create a note:
the handler signals success and stores the untrimmed text `" "`. -/
theorem claim3_counterexample :
    jsTrim " " = "" ∧
    (handleAddNote sSample "p1" "v1" EntryType.prompt "" (some " ")
        7 "n1" 9).2 = true ∧
    findVideo (handleAddNote sSample "p1" "v1" EntryType.prompt "" (some " ")
        7 "n1" 9).1 "p1" "v1"
      = some { vSample with notes := [⟨"n1", 7, " ", 9, 9⟩] } :=
  ⟨by decide, by decide, by decide⟩

/-- **C3 (amended)**: on the `input` entry path (the notes textarea), text
that is empty after trimming is rejected: the whole state — and hence the
target video's note collection — is returned unchanged and failure is
signalled to the caller.  On the `prompt` entry path only a cancelled or
exactly-empty prompt is rejected that way; whitespace-only prompt text
creates a note with the untrimmed text (see the counterexample). -/
theorem claim3_empty_note_rejected (s : AppState) (pid vid : String)
    (draft : String) (resp : Option String) (t : Nat) (nid : String)
    (now : Nat) :
    (jsTrim draft = "" →
      handleAddNote s pid vid EntryType.input draft resp t nid now
        = (s, false)) ∧
    (resp = none ∨ resp = some "" →
      handleAddNote s pid vid EntryType.prompt draft resp t nid now
        = (s, false)) := by
  constructor
  · intro h
    cases hf : findVideo s pid vid <;>
      simp [handleAddNote, hf, addNoteText, h]
  · rintro (rfl | rfl) <;> cases hf : findVideo s pid vid <;>
      simp [handleAddNote, hf, addNoteText]

/-- Witness for C3 (amended): a whitespace-only draft on the `input` path
and a cancelled prompt both leave the sample state unchanged. -/
theorem claim3_empty_note_rejected_witness :
    handleAddNote sSample "p1" "v1" EntryType.input "  " none 7 "n1" 9
      = (sSample, false) ∧
    handleAddNote sSample "p1" "v1" EntryType.prompt "d" none 7 "n1" 9
      = (sSample, false) :=
  ⟨(claim3_empty_note_rejected sSample "p1" "v1" "  " none 7 "n1" 9).1
      (by decide),
   (claim3_empty_note_rejected sSample "p1" "v1" "d" none 7 "n1" 9).2
      (Or.inl rfl)⟩

/-! ### C10: whitespace-only bookmark titles -/

/-- **C10**: the `"Bookmark"` default applies only to the exactly-empty
(falsy) title input.  A whitespace-only title input is truthy, so it is
kept and then trimmed: the stored bookmark title is the empty string, not
the literal `"Bookmark"`, and the bookmark is prepended as usual. -/
theorem claim10_whitespace_bookmark_title (s : AppState) (pid vid : String)
    (v : Video) (time : Nat) (ws tag color nid : String) (now : Nat)
    (hv : findVideo s pid vid = some v)
    (hws : ws ≠ "") (htrim : jsTrim ws = "") :
    (bookmarkOf time ws tag color nid now).title = "" ∧
    (bookmarkOf time ws tag color nid now).title ≠ "Bookmark" ∧
    findVideo (handleAddBookmark s pid vid time ws tag color nid now) pid vid
      = some { v with bookmarks := (bookmarkOf time ws tag color nid now ::
          v.bookmarks) } := by
  have ht : (bookmarkOf time ws tag color nid now).title = "" := by
    show jsTrim (if ws = "" then "Bookmark" else ws) = ""
    rw [if_neg hws, htrim]
  refine ⟨ht, by rw [ht]; decide, ?_⟩
  simp only [handleAddBookmark, hv]
  rw [findVideo_updateVideoIn s pid vid (fun x =>
      { x with bookmarks := (bookmarkOf time ws tag color nid now ::
          x.bookmarks) }) (fun x => rfl), hv, Option.map_some']

/-- Witness for C10 at the whitespace title `" "` on the sample state. -/
theorem claim10_whitespace_bookmark_title_witness :
    (bookmarkOf 8 " " "tg" "sky" "b1" 12).title = "" ∧
    (bookmarkOf 8 " " "tg" "sky" "b1" 12).title ≠ "Bookmark" ∧
    findVideo (handleAddBookmark sSample "p1" "v1" 8 " " "tg" "sky" "b1" 12)
        "p1" "v1"
      = some { vSample with bookmarks := [bookmarkOf 8 " " "tg" "sky" "b1" 12] } :=
  claim10_whitespace_bookmark_title sSample "p1" "v1" vSample 8 " " "tg"
    "sky" "b1" 12 (by decide) (by decide) (by decide)

/-! ### C4: insertion order of new items -/

/-- C4 counterexample: adding a new video to a project that already holds
one appends the record at the back (index 1), not at the front (index 0):
the old video keeps index 0. -/
theorem claim4_counterexample :
    (handleAddVideoSingle sSample "p1" "w2" "src2" "vid-2" 10).projects
      = [{ pSample with
            videos := [vSample, addVideoRecord "w2" "src2" "vid-2" 10] }] ∧
    vSample.videoId ≠ "w2" :=
  ⟨by decide, by decide⟩

/-- **C4 (amended)**: newly created notes and bookmarks are inserted at the
front (index 0) of their owning collections (most-recent-first); newly
added videos, however, are appended at the back of the project's video
list. -/
theorem claim4_insertion_order (s : AppState) (pid vid : String) (v : Video)
    (p : Project) (draft : String) (t : Nat) (nid : String) (now : Nat)
    (time : Nat) (bt btag bcol bid : String) (bnow : Nat)
    (w wsrc wid : String) (wnow : Nat)
    (hv : findVideo s pid vid = some v)
    (hd : jsTrim draft ≠ "")
    (hp : s.projects.find? (fun q => q.id == pid) = some p)
    (hw : p.videos.any (fun x => x.videoId == w) = false) :
    findVideo (handleAddNote s pid vid EntryType.input draft none t nid now).1
        pid vid
      = some { v with notes := ⟨nid, t, jsTrim draft, now, now⟩ :: v.notes } ∧
    findVideo (handleAddBookmark s pid vid time bt btag bcol bid bnow) pid vid
      = some { v with bookmarks := (bookmarkOf time bt btag bcol bid bnow ::
          v.bookmarks) } ∧
    (handleAddVideoSingle s pid w wsrc wid wnow).projects.find?
        (fun q => q.id == pid)
      = some { p with videos := p.videos ++ [addVideoRecord w wsrc wid wnow] } := by
  have hpid : (p.id == pid) = true := by
    have h := List.find?_some hp
    exact h
  have h1 : addNoteText EntryType.input draft none = some (jsTrim draft) := by
    show (if jsTrim draft = "" then none else some (jsTrim draft)) = _
    rw [if_neg hd]
  refine ⟨?_, ?_, ?_⟩
  · simp only [handleAddNote, hv, h1]
    rw [findVideo_updateVideoIn s pid vid (fun x =>
        { x with notes := ((⟨nid, t, jsTrim draft, now, now⟩ : Note) ::
            x.notes) }) (fun x => rfl), hv, Option.map_some']
  · simp only [handleAddBookmark, hv]
    rw [findVideo_updateVideoIn s pid vid (fun x =>
        { x with bookmarks := (bookmarkOf time bt btag bcol bid bnow ::
            x.bookmarks) }) (fun x => rfl), hv, Option.map_some']
  · have hq : ∀ x : Project,
        ((projUpd pid (fun q =>
            { q with videos :=
                (q.videos ++ [addVideoRecord w wsrc wid wnow]) }) x).id == pid)
          = (x.id == pid) := by
      intro x
      have hx := projUpd_id pid (fun q =>
        { q with videos := (q.videos ++ [addVideoRecord w wsrc wid wnow]) })
        (fun q => rfl) x
      rw [hx]
    simp only [handleAddVideoSingle, hp, hw, Bool.false_eq_true, if_false]
    rw [projects_mk, find?_map_pred _ _ _ hq, hp, Option.map_some', projUpd,
      if_pos hpid]

/-- Witness for C4 (amended) on the sample state. -/
theorem claim4_insertion_order_witness :
    findVideo (handleAddNote sSample "p1" "v1" EntryType.input "note" none
        7 "n1" 9).1 "p1" "v1"
      = some { vSample with notes := [⟨"n1", 7, jsTrim "note", 9, 9⟩] } ∧
    findVideo (handleAddBookmark sSample "p1" "v1" 8 "B" "tg" "sky" "b1" 12)
        "p1" "v1"
      = some { vSample with bookmarks := [bookmarkOf 8 "B" "tg" "sky" "b1" 12] } ∧
    (handleAddVideoSingle sSample "p1" "w2" "src2" "vid-2" 10).projects.find?
        (fun q => q.id == "p1")
      = some { pSample with
          videos := [vSample] ++ [addVideoRecord "w2" "src2" "vid-2" 10] } :=
  claim4_insertion_order sSample "p1" "v1" vSample pSample "note" 7 "n1" 9
    8 "B" "tg" "sky" "b1" 12 "w2" "src2" "vid-2" 10
    (by decide) (by decide) (by decide) (by decide)

/-! ### C5: project deletion safety -/

/-- **C5**: deleting a project removes it (no remaining project carries the
deleted id, given the regenerated id is fresh), sets `currentProjectId` to
the first remaining project's id, and never leaves the collection empty:
when the last project is deleted, exactly one new default project with the
freshly generated id remains and `currentProjectId` points at it. -/
theorem claim5_delete_project (s : AppState) (pid nid : String) (now : Nat)
    (hnid : nid ≠ "") (hfresh : nid ≠ pid)
    (hids : ∀ p ∈ s.projects, p.id ≠ "") :
    (handleDeleteProject s pid nid now).projects ≠ [] ∧
    (∀ p ∈ (handleDeleteProject s pid nid now).projects, p.id ≠ pid) ∧
    (∃ q qs, (handleDeleteProject s pid nid now).projects = q :: qs ∧
      (handleDeleteProject s pid nid now).currentProjectId = some q.id) ∧
    (s.projects.filter (fun p => !(p.id == pid)) = [] →
      (handleDeleteProject s pid nid now).projects
        = [⟨nid, "New Project", [], now⟩] ∧
      (handleDeleteProject s pid nid now).currentProjectId = some nid) := by
  cases hrem : s.projects.filter (fun p => !(p.id == pid)) with
  | nil =>
    have hjs : jsTruthyStr (some nid) = some nid := by
      rw [jsTruthyStr, if_neg hnid]
    have hs : handleDeleteProject s pid nid now
        = ⟨[⟨nid, "New Project", [], now⟩], some nid⟩ := by
      unfold handleDeleteProject
      rw [hrem, ← hjs]
      rfl
    rw [hs]
    refine ⟨by simp, ?_, ⟨⟨nid, "New Project", [], now⟩, [], rfl, rfl⟩,
      fun _ => ⟨rfl, rfl⟩⟩
    intro p hp
    have hp' : p = (⟨nid, "New Project", [], now⟩ : Project) := by
      simpa using hp
    rw [hp']
    exact hfresh
  | cons q qs =>
    have hq_mem : q ∈ s.projects.filter (fun p => !(p.id == pid)) := by
      rw [hrem]
      exact List.mem_cons_self q qs
    have hqs : q.id ≠ "" := hids q (List.mem_of_mem_filter hq_mem)
    have hjs : jsTruthyStr (some q.id) = some q.id := by
      rw [jsTruthyStr, if_neg hqs]
    have hs : handleDeleteProject s pid nid now = ⟨q :: qs, some q.id⟩ := by
      unfold handleDeleteProject
      rw [hrem, ← hjs]
      rfl
    rw [hs]
    refine ⟨by simp, ?_, ⟨q, qs, rfl, rfl⟩, ?_⟩
    · intro p hp
      have hp' : p ∈ s.projects.filter (fun x => !(x.id == pid)) := by
        rw [hrem]
        exact hp
      have hbeq := (List.mem_filter.mp hp').2
      intro heq
      rw [heq] at hbeq
      simp at hbeq
    · intro h0
      exact absurd h0 (by simp)

/-- Witness for C5: deleting the only project of the sample state leaves
one fresh default project. -/
theorem claim5_delete_project_witness :
    (handleDeleteProject sSample "p1" "np1" 20).projects ≠ [] ∧
    (∀ p ∈ (handleDeleteProject sSample "p1" "np1" 20).projects,
      p.id ≠ "p1") ∧
    (∃ q qs, (handleDeleteProject sSample "p1" "np1" 20).projects
        = q :: qs ∧
      (handleDeleteProject sSample "p1" "np1" 20).currentProjectId
        = some q.id) ∧
    (sSample.projects.filter (fun p => !(p.id == "p1")) = [] →
      (handleDeleteProject sSample "p1" "np1" 20).projects
        = [⟨"np1", "New Project", [], 20⟩] ∧
      (handleDeleteProject sSample "p1" "np1" 20).currentProjectId
        = some "np1") :=
  claim5_delete_project sSample "p1" "np1" 20 (by decide) (by decide)
    (by decide)

/-! ### C6: duplicate ids on re-import -/

/-- An exported copy of the sample project: same id `p1`, as a JSON export
re-imported into the same state would carry. -/
def importedDup : Project := ⟨"p1", "Imported", [], 99⟩

/-- **C6 (failing input)**: importing a project whose id `p1` already
exists appends it unchanged, the duplicate-id debug effect leaves both
duplicates as they are (its regeneration applies only to the hardcoded id
literal at a positive index), and the project ids are *not* unique
afterwards — contradicting the claim that the collision is resolved by
regenerating the id. -/
theorem claim6_duplicate_import_unresolved :
    handleImportJSON sSample (some importedDup)
      = ⟨[pSample, importedDup], some "p1"⟩ ∧
    fixDuplicateProjectIds (handleImportJSON sSample (some importedDup))
        (fun i => "regen-" ++ toString i)
      = handleImportJSON sSample (some importedDup) ∧
    ¬ ((handleImportJSON sSample (some importedDup)).projects.map
        (fun p => p.id)).Nodup :=
  ⟨by decide, by decide, by decide⟩

/-! ### C9: load on start -/

/-- C9 counterexample: the parsed record `{"currentProjectId":"x"}` — a
record missing its `projects` field — is passed through by the loader with
no project list at all (the spread keeps `projects` absent because the
truthy `currentProjectId` short-circuits the fill), which is not a valid
state under the §3 invariant. -/
theorem claim9_counterexample :
    loadState (LoadInput.record none (some "x")) "fresh" 0
      = ⟨none, some "x"⟩ ∧
    validRawState ⟨none, some "x"⟩ = false :=
  ⟨rfl, rfl⟩

/-- **C9 (amended)**: the loader never throws; an absent record and an
unparsable record yield the freshly constructed default state (one empty
project with `currentProjectId` set to it, a valid state); a record whose
`currentProjectId` is missing or falsy gets it filled with the first
project's id when a non-empty `projects` list is present (a valid state),
and falls back to the default state when `projects` is missing (reading
`projects[0]` throws inside the `try`).  However, a record with a truthy
`currentProjectId` is passed through as-is — when such a record lacks the
`projects` field the loaded state is invalid (see the counterexample). -/
theorem claim9_load_on_start (freshId : String) (now : Nat)
    (p : Project) (rest : List Project) (cid? : Option String)
    (hcid : jsTruthyStr cid? = none) :
    loadState LoadInput.absent freshId now = defaultLoaded freshId now ∧
    loadState LoadInput.unparsable freshId now = defaultLoaded freshId now ∧
    validRawState (defaultLoaded freshId now) = true ∧
    loadState (LoadInput.record (some (p :: rest)) cid?) freshId now
      = ⟨some (p :: rest), some p.id⟩ ∧
    validRawState ⟨some (p :: rest), some p.id⟩ = true ∧
    loadState (LoadInput.record none cid?) freshId now
      = defaultLoaded freshId now := by
  refine ⟨rfl, rfl, ?_, ?_, ?_, ?_⟩
  · simp [validRawState, defaultLoaded]
  · simp [loadState, hcid]
  · simp [validRawState]
  · simp [loadState, hcid]

/-- Witness for C9 (amended) at a record with a missing
`currentProjectId`. -/
theorem claim9_load_on_start_witness :
    loadState LoadInput.absent "f1" 2 = defaultLoaded "f1" 2 ∧
    loadState LoadInput.unparsable "f1" 2 = defaultLoaded "f1" 2 ∧
    validRawState (defaultLoaded "f1" 2) = true ∧
    loadState (LoadInput.record (some (pSample :: [])) none) "f1" 2
      = ⟨some (pSample :: []), some pSample.id⟩ ∧
    validRawState ⟨some (pSample :: []), some pSample.id⟩ = true ∧
    loadState (LoadInput.record none none) "f1" 2 = defaultLoaded "f1" 2 :=
  claim9_load_on_start "f1" 2 pSample [] none rfl

/-! ### C8: id uniqueness under fresh generation -/

/-- All generated ids owned by a video: its record id, its note ids and
its bookmark ids.  (External YouTube `videoId`s are not generated and
their per-project uniqueness is maintained by the duplicate check of
`handleAddVideoSingle` instead.) -/
def videoOwnedIds (v : Video) : List String :=
  v.id :: (v.notes.map (fun n => n.id) ++ v.bookmarks.map (fun b => b.id))

/-- All generated ids owned by a project. -/
def projectOwnedIds (p : Project) : List String :=
  p.id :: (p.videos.map videoOwnedIds).flatten

/-- Every generated id present anywhere in the state. -/
def allIds (s : AppState) : List String :=
  (s.projects.map projectOwnedIds).flatten

/-- Per-video invariant: note ids and bookmark ids are each pairwise
distinct. -/
def VideoOk (v : Video) : Prop :=
  (v.notes.map (fun n => n.id)).Nodup ∧
  (v.bookmarks.map (fun b => b.id)).Nodup

/-- Per-project invariant: video record ids and external `videoId`s are
each pairwise distinct within the project, and every video satisfies
`VideoOk`. -/
def ProjectOk (p : Project) : Prop :=
  (p.videos.map (fun v => v.id)).Nodup ∧
  (p.videos.map (fun v => v.videoId)).Nodup ∧
  ∀ v ∈ p.videos, VideoOk v

/-- The uniqueness invariant of the claim: project ids distinct across the
state and every project internally consistent. -/
def UniqueIds (s : AppState) : Prop :=
  (s.projects.map (fun p => p.id)).Nodup ∧ ∀ p ∈ s.projects, ProjectOk p

instance (v : Video) : Decidable (VideoOk v) := by
  unfold VideoOk
  infer_instance

instance (p : Project) : Decidable (ProjectOk p) := by
  unfold ProjectOk
  infer_instance

instance (s : AppState) : Decidable (UniqueIds s) := by
  unfold UniqueIds
  infer_instance

theorem projectId_mem_allIds {s : AppState} {p : Project}
    (hp : p ∈ s.projects) : p.id ∈ allIds s := by
  unfold allIds
  rw [List.mem_flatten]
  exact ⟨projectOwnedIds p, List.mem_map_of_mem _ hp, by
    unfold projectOwnedIds
    exact List.mem_cons_self _ _⟩

theorem videoId_mem_allIds {s : AppState} {p : Project} {v : Video}
    (hp : p ∈ s.projects) (hv : v ∈ p.videos) : v.id ∈ allIds s := by
  unfold allIds
  rw [List.mem_flatten]
  refine ⟨projectOwnedIds p, List.mem_map_of_mem _ hp, ?_⟩
  unfold projectOwnedIds
  refine List.mem_cons_of_mem _ ?_
  rw [List.mem_flatten]
  exact ⟨videoOwnedIds v, List.mem_map_of_mem _ hv, by
    unfold videoOwnedIds
    exact List.mem_cons_self _ _⟩

theorem noteId_mem_allIds {s : AppState} {p : Project} {v : Video} {n : Note}
    (hp : p ∈ s.projects) (hv : v ∈ p.videos) (hn : n ∈ v.notes) :
    n.id ∈ allIds s := by
  unfold allIds
  rw [List.mem_flatten]
  refine ⟨projectOwnedIds p, List.mem_map_of_mem _ hp, ?_⟩
  unfold projectOwnedIds
  refine List.mem_cons_of_mem _ ?_
  rw [List.mem_flatten]
  refine ⟨videoOwnedIds v, List.mem_map_of_mem _ hv, ?_⟩
  unfold videoOwnedIds
  refine List.mem_cons_of_mem _ ?_
  exact List.mem_append_left _ (List.mem_map_of_mem _ hn)

theorem bookmarkId_mem_allIds {s : AppState} {p : Project} {v : Video}
    {b : Bookmark} (hp : p ∈ s.projects) (hv : v ∈ p.videos)
    (hb : b ∈ v.bookmarks) : b.id ∈ allIds s := by
  unfold allIds
  rw [List.mem_flatten]
  refine ⟨projectOwnedIds p, List.mem_map_of_mem _ hp, ?_⟩
  unfold projectOwnedIds
  refine List.mem_cons_of_mem _ ?_
  rw [List.mem_flatten]
  refine ⟨videoOwnedIds v, List.mem_map_of_mem _ hv, ?_⟩
  unfold videoOwnedIds
  refine List.mem_cons_of_mem _ ?_
  exact List.mem_append_right _ (List.mem_map_of_mem _ hb)

theorem videoUpd_id (vid : String) (g : Video → Video)
    (hg : ∀ v, (g v).id = v.id) (v : Video) :
    (videoUpd vid g v).id = v.id := by
  unfold videoUpd
  by_cases h : (v.videoId == vid) = true
  · rw [if_pos h]
    exact hg v
  · rw [if_neg h]

theorem map_id_of_projUpd (l : List Project) (pid : String)
    (f : Project → Project) (hf : ∀ p, (f p).id = p.id) :
    (l.map (projUpd pid f)).map (fun p => p.id) = l.map (fun p => p.id) := by
  rw [List.map_map]
  refine List.map_congr_left ?_
  intro p _
  show (projUpd pid f p).id = p.id
  exact projUpd_id pid f hf p

theorem uniqueIds_updateVideoIn (s : AppState) (pid vid : String)
    (g : Video → Video) (hgid : ∀ v, (g v).id = v.id)
    (hgv : ∀ v, (g v).videoId = v.videoId)
    (hok : ∀ p ∈ s.projects, (p.id == pid) = true →
      ∀ v ∈ p.videos, VideoOk v → VideoOk (g v))
    (hu : UniqueIds s) : UniqueIds (updateVideoIn s pid vid g) := by
  unfold updateVideoIn updateProjectIn
  constructor
  · rw [projects_mk, map_id_of_projUpd s.projects pid (fun q =>
        { q with videos := (q.videos.map (videoUpd vid g)) }) (fun q => rfl)]
    exact hu.1
  · intro p' hp'
    rw [projects_mk] at hp'
    obtain ⟨p, hp, rfl⟩ := List.mem_map.mp hp'
    by_cases h : (p.id == pid) = true
    · have heq : projUpd pid (fun q =>
          { q with videos := q.videos.map (videoUpd vid g) }) p
          = { p with videos := p.videos.map (videoUpd vid g) } := by
        rw [projUpd, if_pos h]
      rw [heq]
      have hpo := hu.2 p hp
      refine ⟨?_, ?_, ?_⟩
      · rw [videos_mk, List.map_map]
        rw [show p.videos.map ((fun v => v.id) ∘ videoUpd vid g)
              = p.videos.map (fun v => v.id) from
            List.map_congr_left (fun v _ => videoUpd_id vid g hgid v)]
        exact hpo.1
      · rw [videos_mk, List.map_map]
        rw [show p.videos.map ((fun v => v.videoId) ∘ videoUpd vid g)
              = p.videos.map (fun v => v.videoId) from
            List.map_congr_left (fun v _ => videoUpd_videoId vid g hgv v)]
        exact hpo.2.1
      · intro v' hv'
        rw [videos_mk] at hv'
        obtain ⟨v, hv, rfl⟩ := List.mem_map.mp hv'
        by_cases hvm : (v.videoId == vid) = true
        · have hvu : videoUpd vid g v = g v := by
            rw [videoUpd, if_pos hvm]
          rw [hvu]
          exact hok p hp h v hv (hpo.2.2 v hv)
        · have hvu : videoUpd vid g v = v := by
            rw [videoUpd, if_neg hvm]
          rw [hvu]
          exact hpo.2.2 v hv
    · have heq : projUpd pid (fun q =>
          { q with videos := q.videos.map (videoUpd vid g) }) p = p := by
        rw [projUpd, if_neg h]
      rw [heq]
      exact hu.2 p hp

theorem uniqueIds_addProject (s : AppState) (name newId : String) (now : Nat)
    (hfresh : newId ∉ allIds s) (hu : UniqueIds s) :
    UniqueIds (handleAddProject s name newId now) := by
  unfold handleAddProject
  split
  · exact hu
  · constructor
    · rw [projects_mk, List.map_append]
      refine hu.1.append (by simp) ?_
      intro a ha hb
      have hb' : a = newId := by simpa using hb
      subst hb'
      obtain ⟨p, hp, hpid⟩ := List.mem_map.mp ha
      exact hfresh (hpid ▸ projectId_mem_allIds hp)
    · intro p hp
      rw [projects_mk] at hp
      rcases List.mem_append.mp hp with h | h
      · exact hu.2 p h
      · have hp' : p = ⟨newId, name, [], now⟩ := by simpa using h
        rw [hp']
        simp [ProjectOk, VideoOk]

theorem uniqueIds_addVideo (s : AppState) (pid vid source newId : String)
    (now : Nat) (hfresh : newId ∉ allIds s) (hu : UniqueIds s) :
    UniqueIds (handleAddVideoSingle s pid vid source newId now) := by
  unfold handleAddVideoSingle
  split
  · exact hu
  next proj hfind =>
    split
    · exact hu
    next hany =>
      have hany' : proj.videos.any (fun v => v.videoId == vid) = false := by
        cases hx : proj.videos.any (fun v => v.videoId == vid) with
        | false => rfl
        | true => exact absurd hx hany
      constructor
      · rw [projects_mk, map_id_of_projUpd s.projects pid (fun q =>
            { q with videos :=
                (q.videos ++ [addVideoRecord vid source newId now]) })
            (fun q => rfl)]
        exact hu.1
      · intro p' hp'
        rw [projects_mk] at hp'
        obtain ⟨p, hp, rfl⟩ := List.mem_map.mp hp'
        by_cases h : (p.id == pid) = true
        · have heq : projUpd pid (fun q =>
              { q with videos :=
                  (q.videos ++ [addVideoRecord vid source newId now]) }) p
              = { p with videos :=
                  (p.videos ++ [addVideoRecord vid source newId now]) } := by
            rw [projUpd, if_pos h]
          rw [heq]
          have hproj_mem := List.mem_of_find?_eq_some hfind
          have hproj_id : (proj.id == pid) = true := by
            have hx := List.find?_some hfind
            exact hx
          have hpp : p = proj := by
            refine List.inj_on_of_nodup_map hu.1 hp hproj_mem ?_
            rw [eq_of_beq h, eq_of_beq hproj_id]
          have hpo := hu.2 p hp
          refine ⟨?_, ?_, ?_⟩
          · rw [videos_mk, List.map_append]
            refine hpo.1.append (by simp) ?_
            intro a ha hb
            have hb' : a = newId := by simpa using hb
            subst hb'
            obtain ⟨v, hv, hvid⟩ := List.mem_map.mp ha
            exact hfresh (hvid ▸ videoId_mem_allIds hp hv)
          · rw [videos_mk, List.map_append]
            refine hpo.2.1.append (by simp) ?_
            intro a ha hb
            have hb' : a = vid := by simpa using hb
            subst hb'
            obtain ⟨v, hv, hvid⟩ := List.mem_map.mp ha
            rw [List.any_eq_false] at hany'
            have := hany' v (by rw [hpp] at hv; exact hv)
            rw [hvid] at this
            simp at this
          · intro v hv
            rw [videos_mk] at hv
            rcases List.mem_append.mp hv with h' | h'
            · exact hpo.2.2 v h'
            · have hv' : v = addVideoRecord vid source newId now := by
                simpa using h'
              rw [hv']
              simp [VideoOk, addVideoRecord]
        · have heq : projUpd pid (fun q =>
              { q with videos :=
                  (q.videos ++ [addVideoRecord vid source newId now]) }) p
              = p := by
            rw [projUpd, if_neg h]
          rw [heq]
          exact hu.2 p hp

theorem uniqueIds_addNote (s : AppState) (pid vid : String)
    (entry : EntryType) (draft : String) (resp : Option String)
    (time : Nat) (newId : String) (now : Nat)
    (hfresh : newId ∉ allIds s) (hu : UniqueIds s) :
    UniqueIds (handleAddNote s pid vid entry draft resp time newId now).1 := by
  unfold handleAddNote
  split
  · exact hu
  · split
    · exact hu
    next text ht =>
      show UniqueIds (updateVideoIn s pid vid _)
      refine uniqueIds_updateVideoIn s pid vid _ (fun v => rfl) (fun v => rfl)
        ?_ hu
      intro p hp hpid v hv hok
      refine ⟨?_, hok.2⟩
      show ((⟨newId, time, text, now, now⟩ : Note) :: v.notes).map
        (fun n => n.id) |>.Nodup
      rw [List.map_cons, List.nodup_cons]
      refine ⟨?_, hok.1⟩
      intro hmem
      obtain ⟨n, hn, hnid⟩ := List.mem_map.mp hmem
      have hnid' : n.id = newId := hnid
      exact hfresh (hnid' ▸ noteId_mem_allIds hp hv hn)

theorem uniqueIds_addBookmark (s : AppState) (pid vid : String) (time : Nat)
    (title tag color newId : String) (now : Nat)
    (hfresh : newId ∉ allIds s) (hu : UniqueIds s) :
    UniqueIds (handleAddBookmark s pid vid time title tag color newId now) := by
  unfold handleAddBookmark
  split
  · exact hu
  · refine uniqueIds_updateVideoIn s pid vid _ (fun v => rfl) (fun v => rfl)
      ?_ hu
    intro p hp hpid v hv hok
    refine ⟨hok.1, ?_⟩
    show (bookmarkOf time title tag color newId now :: v.bookmarks).map
      (fun b => b.id) |>.Nodup
    rw [List.map_cons, List.nodup_cons]
    refine ⟨?_, hok.2⟩
    intro hmem
    obtain ⟨b, hb, hbid⟩ := List.mem_map.mp hmem
    have hbid' : b.id = newId := hbid
    exact hfresh (hbid' ▸ bookmarkId_mem_allIds hp hv hb)

/-- One store operation of the claim's sequence, carrying the generated id
and the user-originated data of the corresponding handler. -/
inductive StoreOp
  | createProject (name newId : String) (now : Nat)
  | addVideo (pid vid source newId : String) (now : Nat)
  | addNote (pid vid : String) (entry : EntryType) (draft : String)
      (resp : Option String) (time : Nat) (newId : String) (now : Nat)
  | addBookmark (pid vid : String) (time : Nat)
      (title tag color newId : String) (now : Nat)

/-- Apply one operation through the corresponding handler. -/
def applyOp (s : AppState) : StoreOp → AppState
  | .createProject name newId now => handleAddProject s name newId now
  | .addVideo pid vid source newId now =>
      handleAddVideoSingle s pid vid source newId now
  | .addNote pid vid entry draft resp time newId now =>
      (handleAddNote s pid vid entry draft resp time newId now).1
  | .addBookmark pid vid time title tag color newId now =>
      handleAddBookmark s pid vid time title tag color newId now

/-- The id the generator yields for an operation. -/
def opNewId : StoreOp → String
  | .createProject _ newId _ => newId
  | .addVideo _ _ _ newId _ => newId
  | .addNote _ _ _ _ _ _ newId _ => newId
  | .addBookmark _ _ _ _ _ _ newId _ => newId

/-- Apply a sequence of operations left to right. -/
def applyOps (s : AppState) : List StoreOp → AppState
  | [] => s
  | op :: ops => applyOps (applyOp s op) ops

/-- The claim's precondition, executably: each operation's generated id is
not already present in the state the operation is applied to. -/
def freshSeq (s : AppState) : List StoreOp → Bool
  | [] => true
  | op :: ops =>
    !(decide (opNewId op ∈ allIds s)) && freshSeq (applyOp s op) ops

theorem uniqueIds_applyOp (s : AppState) (op : StoreOp)
    (hfresh : opNewId op ∉ allIds s) (hu : UniqueIds s) :
    UniqueIds (applyOp s op) := by
  cases op with
  | createProject name newId now =>
    exact uniqueIds_addProject s name newId now hfresh hu
  | addVideo pid vid source newId now =>
    exact uniqueIds_addVideo s pid vid source newId now hfresh hu
  | addNote pid vid entry draft resp time newId now =>
    exact uniqueIds_addNote s pid vid entry draft resp time newId now
      hfresh hu
  | addBookmark pid vid time title tag color newId now =>
    exact uniqueIds_addBookmark s pid vid time title tag color newId now
      hfresh hu

/-- **C8**: starting from a state with unique ids, any sequence of
`createProject`, `addVideo`, `addNote` and `addBookmark` operations whose
generated ids are each fresh for the state they are applied to preserves
uniqueness at every nesting level: project ids across the state, video ids
and external `videoId`s within each project, and note and bookmark ids
within each video. -/
theorem claim8_unique_ids (s : AppState) (ops : List StoreOp)
    (hu : UniqueIds s) (hf : freshSeq s ops = true) :
    UniqueIds (applyOps s ops) := by
  induction ops generalizing s with
  | nil => exact hu
  | cons op ops ih =>
    rw [freshSeq, Bool.and_eq_true] at hf
    have hfr : opNewId op ∉ allIds s := by
      intro hmem
      rw [Bool.not_eq_true', decide_eq_false_iff_not] at hf
      · exact hf.1 hmem
    exact ih (applyOp s op) (uniqueIds_applyOp s op hfr hu) hf.2

/-- A sample operation sequence: a fresh project, then a video, a note and
a bookmark inside it. -/
def opsSample : List StoreOp :=
  [StoreOp.createProject "Study" "p2" 30,
   StoreOp.addVideo "p2" "dQw4w9WgXcQ" "src9" "vid-9" 31,
   StoreOp.addNote "p2" "dQw4w9WgXcQ" EntryType.input "hello" none 3 "n9" 32,
   StoreOp.addBookmark "p2" "dQw4w9WgXcQ" 4 "B" "t" "c" "b9" 33]

/-- Witness for C8 on the sample state and sample operation sequence. -/
theorem claim8_unique_ids_witness :
    UniqueIds sSample ∧ freshSeq sSample opsSample = true ∧
    UniqueIds (applyOps sSample opsSample) :=
  ⟨by decide, by decide,
   claim8_unique_ids sSample opsSample (by decide) (by decide)⟩

end YtNotes
